import Mathlib

/-!
Verification of the DSL interpreter in `app/services/dsl.py`
(`Determin` — a deterministic recipe/data-transformation service).

The file shallowly embeds:
  * the value model handled by the safe expression evaluator `_eval_expr`
    (Python values null / bool / int / str / list, plus the built-in
    function objects stored in `_ALLOWED_FUNCS`); IEEE floats are outside
    the model, so float literals and true division (`/`, the only
    float-producing grammar construct) are not representable — no claim
    below concerns float arithmetic;
  * the expression AST accepted by `_eval_expr` (post `ast.parse`), with
    dedicated constructors for the disallowed node kinds (`ast.List`,
    `ast.Attribute`, `ast.Subscript`) that fall into the catch-all
    "Expression element not allowed" branch;
  * the DataFrame model and the operations `regex_extract`, `select`,
    `slice`, `take_every`, `sort_by`, `group_by_agg` and `scan`, plus the
    sequential step dispatcher of `execute_dsl`.  The polars regex engine
    is an opaque parameter; the order in which `polars.group_by` (called
    without `maintain_order=True`) returns groups is documented by polars
    as non-deterministic, and is therefore an explicit oracle parameter
    constrained to permutations of the first-appearance key list.

Error model: `DSLExecutionError` messages are reproduced from the source
f-strings (argument rendering inside messages is abbreviated where the
source interpolates Python `repr`s); exceptions that the source lets
escape uncaught (e.g. `TypeError` from `None < 3`) are a separate
constructor.
-/

namespace Determin

/-- Python values occurring in the interpreter: null, bool, int, str,
list, and the built-in function objects of `_ALLOWED_FUNCS` (which enter
the evaluation environment via `{**_ALLOWED_FUNCS, **row}`).  Floats are
outside the model (see the header). -/
inductive Value where
  | null
  | bool (b : Bool)
  | int (n : Int)
  | str (s : String)
  | list (vs : List Value)
  | builtin (name : String)
deriving Repr

mutual

def valueDecEq : (a b : Value) → Decidable (a = b)
  | .null, .null => .isTrue rfl
  | .null, .bool _ => .isFalse (fun h => Value.noConfusion h)
  | .null, .int _ => .isFalse (fun h => Value.noConfusion h)
  | .null, .str _ => .isFalse (fun h => Value.noConfusion h)
  | .null, .list _ => .isFalse (fun h => Value.noConfusion h)
  | .null, .builtin _ => .isFalse (fun h => Value.noConfusion h)
  | .bool _, .null => .isFalse (fun h => Value.noConfusion h)
  | .bool a, .bool b =>
    match decEq a b with
    | .isTrue h => .isTrue (by rw [h])
    | .isFalse h => .isFalse (fun hh => h (by cases hh; rfl))
  | .bool _, .int _ => .isFalse (fun h => Value.noConfusion h)
  | .bool _, .str _ => .isFalse (fun h => Value.noConfusion h)
  | .bool _, .list _ => .isFalse (fun h => Value.noConfusion h)
  | .bool _, .builtin _ => .isFalse (fun h => Value.noConfusion h)
  | .int _, .null => .isFalse (fun h => Value.noConfusion h)
  | .int _, .bool _ => .isFalse (fun h => Value.noConfusion h)
  | .int a, .int b =>
    match decEq a b with
    | .isTrue h => .isTrue (by rw [h])
    | .isFalse h => .isFalse (fun hh => h (by cases hh; rfl))
  | .int _, .str _ => .isFalse (fun h => Value.noConfusion h)
  | .int _, .list _ => .isFalse (fun h => Value.noConfusion h)
  | .int _, .builtin _ => .isFalse (fun h => Value.noConfusion h)
  | .str _, .null => .isFalse (fun h => Value.noConfusion h)
  | .str _, .bool _ => .isFalse (fun h => Value.noConfusion h)
  | .str _, .int _ => .isFalse (fun h => Value.noConfusion h)
  | .str a, .str b =>
    match decEq a b with
    | .isTrue h => .isTrue (by rw [h])
    | .isFalse h => .isFalse (fun hh => h (by cases hh; rfl))
  | .str _, .list _ => .isFalse (fun h => Value.noConfusion h)
  | .str _, .builtin _ => .isFalse (fun h => Value.noConfusion h)
  | .list _, .null => .isFalse (fun h => Value.noConfusion h)
  | .list _, .bool _ => .isFalse (fun h => Value.noConfusion h)
  | .list _, .int _ => .isFalse (fun h => Value.noConfusion h)
  | .list _, .str _ => .isFalse (fun h => Value.noConfusion h)
  | .list a, .list b =>
    match valueListDecEq a b with
    | .isTrue h => .isTrue (by rw [h])
    | .isFalse h => .isFalse (fun hh => h (by cases hh; rfl))
  | .list _, .builtin _ => .isFalse (fun h => Value.noConfusion h)
  | .builtin _, .null => .isFalse (fun h => Value.noConfusion h)
  | .builtin _, .bool _ => .isFalse (fun h => Value.noConfusion h)
  | .builtin _, .int _ => .isFalse (fun h => Value.noConfusion h)
  | .builtin _, .str _ => .isFalse (fun h => Value.noConfusion h)
  | .builtin _, .list _ => .isFalse (fun h => Value.noConfusion h)
  | .builtin a, .builtin b =>
    match decEq a b with
    | .isTrue h => .isTrue (by rw [h])
    | .isFalse h => .isFalse (fun hh => h (by cases hh; rfl))

def valueListDecEq : (a b : List Value) → Decidable (a = b)
  | [], [] => .isTrue rfl
  | [], _ :: _ => .isFalse (fun h => List.noConfusion h)
  | _ :: _, [] => .isFalse (fun h => List.noConfusion h)
  | a :: as, b :: bs =>
    match valueDecEq a b, valueListDecEq as bs with
    | .isTrue h1, .isTrue h2 => .isTrue (by rw [h1, h2])
    | .isFalse h1, _ => .isFalse (fun hh => h1 (by cases hh; rfl))
    | .isTrue _, .isFalse h2 => .isFalse (fun hh => h2 (by cases hh; rfl))

end

instance : DecidableEq Value := valueDecEq

/-- Python truthiness `bool(v)`: `None`, `0`, `""`, `[]` are falsy;
function objects are truthy. -/
def pyBool : Value → Bool
  | .null => false
  | .bool b => b
  | .int n => n != 0
  | .str s => s != ""
  | .list vs => !vs.isEmpty
  | .builtin _ => true

/-- Numeric view used by Python arithmetic and comparisons: `bool` is a
subclass of `int` (`True == 1`). -/
def asNum : Value → Option Int
  | .bool b => some (if b then 1 else 0)
  | .int n => some n
  | _ => none

mutual
/-- Python `==` (`operator.eq`) on the modelled values: `None` equals only
`None`; `bool` and `int` compare numerically (`True == 1`); strings and
lists structurally; distinct built-in function objects are unequal;
cross-type comparisons are `False`. -/
def pyEq : Value → Value → Bool
  | .null, .null => true
  | .str a, .str b => a == b
  | .list a, .list b => pyEqList a b
  | .builtin a, .builtin b => a == b
  | a, b =>
    match asNum a, asNum b with
    | some x, some y => x == y
    | _, _ => false

def pyEqList : List Value → List Value → Bool
  | [], [] => true
  | a :: as, b :: bs => pyEq a b && pyEqList as bs
  | _, _ => false
end

/-- Errors: `dsl` is a raised `DSLExecutionError` with its message;
`pyExc` is a non-DSL Python exception (`TypeError`, `ValueError`, …) that
the source raises and never catches on that path. -/
inductive Err where
  | dsl (msg : String)
  | pyExc (msg : String)
deriving DecidableEq, Repr

/-- Message of an error, as `str(e)` renders it. -/
def Err.msg : Err → String
  | .dsl m => m
  | .pyExc m => m

mutual
/-- Python `str(v)` (the `str` built-in; note `_to_str` in the source maps
`None` to `""` instead, and is modelled separately at its call sites). -/
def pyStr : Value → String
  | .null => "None"
  | .bool true => "True"
  | .bool false => "False"
  | .int n => toString n
  | .str s => s
  | .list vs => "[" ++ String.intercalate ", " (pyStrItems vs) ++ "]"
  | .builtin n => "<function " ++ n ++ ">"

/-- `repr` rendering of list elements (`str([1,'a']) = "[1, 'a']"`);
string escaping inside the quotes is not reproduced. -/
def pyStrItems : List Value → List String
  | [] => []
  | .str s :: vs => ("'" ++ s ++ "'") :: pyStrItems vs
  | v :: vs => pyStr v :: pyStrItems vs
end

/-- `_to_str` from the source: `"" if value is None else str(value)`. -/
def toStrHelper (v : Value) : String :=
  match v with
  | .null => ""
  | _ => pyStr v

mutual
/-- Python ordering (`<`, `<=`, `>`, `>=`): numbers with numbers
(`bool` as `int`), strings with strings, lists lexicographically
(element equality first, then order); every other combination — in
particular anything involving `None` — raises `TypeError`. -/
def pyOrd : Value → Value → Except Err Ordering
  | .str a, .str b => .ok (compare a b)
  | .list a, .list b => pyOrdList a b
  | a, b =>
    match asNum a, asNum b with
    | some x, some y => .ok (compare x y)
    | _, _ => .error (.pyExc "TypeError: ordering not supported between these operand types")

def pyOrdList : List Value → List Value → Except Err Ordering
  | [], [] => .ok .eq
  | [], _ :: _ => .ok .lt
  | _ :: _, [] => .ok .gt
  | a :: as, b :: bs =>
    if pyEq a b then pyOrdList as bs else pyOrd a b
end

/-- Python `is` (`operator.is_`, object identity).  Determined for `None`
(a singleton), booleans and the interned built-in function objects; for
two non-null ints/strings/lists identity is a CPython implementation
detail (small-int caching etc.) and is modelled as `false`; no claim
depends on that case. -/
def pyIs : Value → Value → Bool
  | .null, .null => true
  | .bool a, .bool b => a == b
  | .builtin a, .builtin b => a == b
  | _, _ => false

/-- Substring occurrence at any position (`needle in hay` for Python
strings, by code points; an empty needle is always contained). -/
def charsContain (needle : List Char) : List Char → Bool
  | [] => needle.isEmpty
  | c :: cs => needle.isPrefixOf (c :: cs) || charsContain needle cs

/-- Python `in`: membership by `==` for list containers, substring test
when both operands are strings; any other container (including `None`)
raises `TypeError`. -/
def pyIn : Value → Value → Except Err Bool
  | v, .list vs => .ok (vs.any (pyEq v))
  | .str a, .str b => .ok (charsContain a.data b.data)
  | _, .str _ => .error (.pyExc "TypeError: 'in <string>' requires string as left operand")
  | _, _ => .error (.pyExc "TypeError: argument of type is not iterable")

/-- Python `+` (`operator.add`): numeric addition, string and list
concatenation; anything else raises `TypeError`. -/
def pyAdd : Value → Value → Except Err Value
  | .str a, .str b => .ok (.str (a ++ b))
  | .list a, .list b => .ok (.list (a ++ b))
  | a, b =>
    match asNum a, asNum b with
    | some x, some y => .ok (.int (x + y))
    | _, _ => .error (.pyExc "TypeError: unsupported operand type(s) for +")

/-- Python `-` (`operator.sub`): numeric only. -/
def pySub (a b : Value) : Except Err Value :=
  match asNum a, asNum b with
  | some x, some y => .ok (.int (x - y))
  | _, _ => .error (.pyExc "TypeError: unsupported operand type(s) for -")

/-- `n` copies of string `s` (`s * n` in Python; `n ≤ 0` gives `""`). -/
def strRepeat (s : String) (n : Int) : String :=
  String.join (List.replicate n.toNat s)

/-- `n` copies of list `l`. -/
def listRepeat (l : List Value) (n : Int) : List Value :=
  (List.replicate n.toNat l).flatten

/-- Python `*` (`operator.mul`): numeric product, or sequence repetition
(string/list times an integer, in either order). -/
def pyMul : Value → Value → Except Err Value
  | .str s, b =>
    match asNum b with
    | some n => .ok (.str (strRepeat s n))
    | none => .error (.pyExc "TypeError: unsupported operand type(s) for *")
  | a, .str s =>
    match asNum a with
    | some n => .ok (.str (strRepeat s n))
    | none => .error (.pyExc "TypeError: unsupported operand type(s) for *")
  | .list l, b =>
    match asNum b with
    | some n => .ok (.list (listRepeat l n))
    | none => .error (.pyExc "TypeError: unsupported operand type(s) for *")
  | a, .list l =>
    match asNum a with
    | some n => .ok (.list (listRepeat l n))
    | none => .error (.pyExc "TypeError: unsupported operand type(s) for *")
  | a, b =>
    match asNum a, asNum b with
    | some x, some y => .ok (.int (x * y))
    | _, _ => .error (.pyExc "TypeError: unsupported operand type(s) for *")

/-- Python `%` (`operator.mod`) on integers: the remainder takes the sign
of the divisor (`Int.fmod`); division by zero raises.  Python's printf
formatting for a string left operand is not modelled (such an expression
raises `TypeError` unless the string contains `%` specifiers). -/
def pyMod (a b : Value) : Except Err Value :=
  match asNum a, asNum b with
  | some x, some y =>
    if y == 0 then .error (.pyExc "ZeroDivisionError: integer modulo by zero")
    else .ok (.int (Int.fmod x y))
  | _, _ => .error (.pyExc "TypeError: unsupported operand type(s) for %")

/-- The keys of `_ALLOWED_FUNCS`, in source order. -/
def funcNames : List String :=
  ["len", "int", "float", "str", "abs", "round", "round_to", "ceil", "floor",
   "sqrt", "pow", "regex_match", "today", "now", "date", "to_date", "year",
   "month", "day", "date_add_days", "date_diff_days", "upper", "lower",
   "trim", "substr", "left", "right", "mid", "find", "search", "concat_ws",
   "startswith", "endswith", "replace", "regex_extract", "to_bool", "ifelse",
   "coalesce_val", "parse_number", "safe_int", "safe_float", "sum_nonnull",
   "first_digit", "last_digit", "leading_number", "trailing_number", "digits"]

/-- `_first_digit`: first decimal digit character of `_to_str(value)`,
else null. -/
def firstDigitFn (v : Value) : Value :=
  match (toStrHelper v).data.find? (·.isDigit) with
  | some c => .str (String.mk [c])
  | none => .null

/-- `_last_digit`: last decimal digit character of `_to_str(value)`,
else null. -/
def lastDigitFn (v : Value) : Value :=
  match (toStrHelper v).data.reverse.find? (·.isDigit) with
  | some c => .str (String.mk [c])
  | none => .null

/-- `_digits`: all decimal digit characters of `_to_str(value)` in order,
null when there are none. -/
def digitsFn (v : Value) : Value :=
  let ds := (toStrHelper v).data.filter (·.isDigit)
  if ds.isEmpty then .null else .str (String.mk ds)

/-- Python `abs` on the modelled values. -/
def pyAbs (v : Value) : Except Err Value :=
  match asNum v with
  | some n => .ok (.int n.natAbs)
  | none => .error (.pyExc "TypeError: bad operand type for abs()")

/-- Python `len`: strings (code points) and lists only. -/
def pyLen : Value → Except Err Value
  | .str s => .ok (.int s.length)
  | .list vs => .ok (.int vs.length)
  | _ => .error (.pyExc "TypeError: object has no len()")

/-- `int(v)` as used by the `int` built-in and scan casts: ints pass
through, bools become 0/1, strings must spell an optionally signed
decimal integer (surrounding whitespace allowed), everything else
raises. -/
def pyIntCast : Value → Except Err Value
  | .int n => .ok (.int n)
  | .bool b => .ok (.int (if b then 1 else 0))
  | .str s =>
    let t := s.trim
    let (sign, ds) : Int × List Char :=
      match t.data with
      | '-' :: rest => (-1, rest)
      | '+' :: rest => (1, rest)
      | cs => (1, cs)
    if ds.isEmpty || !ds.all (·.isDigit) then
      .error (.pyExc "ValueError: invalid literal for int()")
    else
      .ok (.int (sign * (ds.foldl (fun acc c => acc * 10 + ((c.toNat : Int) - ('0'.toNat : Int))) (0 : Int))))
  | _ => .error (.pyExc "TypeError: int() argument must be a string or a number")

/-- `_ifelse(cond, a, b)`: `a if bool(cond) else b`. -/
def ifelseFn (c a b : Value) : Value :=
  if pyBool c then a else b

/-- `_coalesce_val(*args)`: first non-null argument, else null. -/
def coalesceValFn : List Value → Value
  | [] => .null
  | .null :: vs => coalesceValFn vs
  | v :: _ => v

/-- Application of a built-in from `_ALLOWED_FUNCS` to positional
arguments.  The string/digit/null helpers and the int-valued numeric
helpers are modelled exactly; the built-ins whose results involve IEEE
floats, regexes or wall-clock time (`float`, `round`, `round_to`, `ceil`,
`floor`, `sqrt`, `pow`, `regex_match`, `regex_extract`, `parse_number`,
`safe_float`, `sum_nonnull`, `today`, `now` and the date helpers) are left
abstract: applying one is mapped to an opaque failure, and no claim below
evaluates them.  A wrong number of arguments raises `TypeError`, which the
caller wraps like any other exception from the call. -/
def applyBuiltin : String → List Value → Except Err Value
  | "len", [v] => pyLen v
  | "int", [v] => pyIntCast v
  | "str", [v] => .ok (.str (pyStr v))
  | "abs", [v] => pyAbs v
  | "upper", [v] => .ok (.str (toStrHelper v).toUpper)
  | "lower", [v] => .ok (.str (toStrHelper v).toLower)
  | "trim", [v] => .ok (.str (toStrHelper v).trim)
  | "startswith", [s, p] => .ok (.bool ((toStrHelper s).startsWith (pyStr p)))
  | "endswith", [s, p] => .ok (.bool ((toStrHelper s).endsWith (pyStr p)))
  | "replace", [s, a, b] => .ok (.str ((toStrHelper s).replace (pyStr a) (pyStr b)))
  | "find", [sub, text] =>
    .ok (.int (match (toStrHelper text).splitOn (toStrHelper sub) with
               | first :: _ :: _ => first.length
               | _ => -1))
  | "ifelse", [c, a, b] => .ok (ifelseFn c a b)
  | "coalesce_val", args => .ok (coalesceValFn args)
  | "first_digit", [v] => .ok (firstDigitFn v)
  | "last_digit", [v] => .ok (lastDigitFn v)
  | "digits", [v] => .ok (digitsFn v)
  | name, _ =>
    if name ∈ ["len", "int", "str", "abs", "upper", "lower", "trim",
               "startswith", "endswith", "replace", "find", "ifelse",
               "first_digit", "last_digit", "digits"] then
      .error (.pyExc "TypeError: wrong number of arguments")
    else
      .error (.dsl "built-in outside the modelled subset")

/-- Unary operators of `_ALLOWED_UNARY`: `USub` is numeric negation,
`UAdd` is the identity on any value (`lambda x: x` in the source, not
Python's `+`), `Not` negates truthiness. -/
inductive UnOp where
  | usub
  | uadd
  | unot
deriving DecidableEq, Repr

/-- Binary operators of `_ALLOWED_BINOPS`.  True division (`ast.Div`)
produces IEEE floats and is outside the model (header note); a `BinOp`
node whose operator is not in `_ALLOWED_BINOPS` (e.g. `**`) falls through
to the catch-all branch of `_eval_expr` and is likewise not represented
here. -/
inductive BinOp where
  | add
  | sub
  | mult
  | mod
deriving DecidableEq, Repr

/-- Comparison operators of `_ALLOWED_CMP_OPS` (every `ast.cmpop` is in
that table, so the "Comparator not allowed" branch of the source is
unreachable). -/
inductive CmpOp where
  | eq
  | ne
  | lt
  | le
  | gt
  | ge
  | isOp
  | isNot
  | inOp
  | notIn
deriving DecidableEq, Repr

/-- `and` / `or` (`_ALLOWED_BOOL_OPS`). -/
inductive BoolK where
  | and
  | or
deriving DecidableEq, Repr

/-- The expression tree produced by `ast.parse(expr, mode="eval")`, as
walked by `_eval_expr`.  `listLit`, `attribute` and `subscript` model the
disallowed node kinds `ast.List`, `ast.Attribute` and `ast.Subscript`,
which reach the catch-all "Expression element not allowed" branch when
(and only when) evaluation visits them.  `const` models `ast.Constant`
(literals); calls have an `ast.Name` callee and positional arguments, as
the source requires.  Float literals and `/` are outside the model. -/
inductive Expr where
  | const (v : Value)
  | name (id : String)
  | unop (op : UnOp) (e : Expr)
  | binop (op : BinOp) (l r : Expr)
  | boolop (op : BoolK) (values : List Expr)
  | compare (left : Expr) (rest : List (CmpOp × Expr))
  | call (fname : String) (args : List Expr)
  | ifExp (body test orelse : Expr)
  | listLit (es : List Expr)
  | attribute (e : Expr) (attr : String)
  | subscript (e idx : Expr)
deriving Repr

/-- The environment `_eval_expr` receives: a Python dict, modelled as an
association list where the earliest binding wins (callers build it so
that row/state entries precede — i.e. override — the built-ins). -/
abbrev Env := List (String × Value)

/-- Dict lookup. -/
def envGet (env : Env) (k : String) : Option Value :=
  env.lookup k

/-- Dict entry assignment (`d[k] = v`): the new binding shadows any old
one. -/
def envSet (env : Env) (k : String) (v : Value) : Env :=
  (k, v) :: env

/-- One comparison step: `_ALLOWED_CMP_OPS[type(op)](left, right)`. -/
def applyCmp : CmpOp → Value → Value → Except Err Bool
  | .eq, a, b => .ok (pyEq a b)
  | .ne, a, b => .ok (!pyEq a b)
  | .lt, a, b => do pure ((← pyOrd a b) == .lt)
  | .le, a, b => do pure ((← pyOrd a b) != .gt)
  | .gt, a, b => do pure ((← pyOrd a b) == .gt)
  | .ge, a, b => do pure ((← pyOrd a b) != .lt)
  | .isOp, a, b => .ok (pyIs a b)
  | .isNot, a, b => .ok (!pyIs a b)
  | .inOp, a, b => pyIn a b
  | .notIn, a, b => do pure (!(← pyIn a b))

/-- `_ALLOWED_UNARY` application (no try/except around it in the source:
a `TypeError` from `-` escapes). -/
def applyUnary : UnOp → Value → Except Err Value
  | .usub, v =>
    match asNum v with
    | some n => .ok (.int (-n))
    | none => .error (.pyExc "TypeError: bad operand type for unary -")
  | .uadd, v => .ok v
  | .unot, v => .ok (.bool (!pyBool v))

/-- `_ALLOWED_BINOPS` application. -/
def applyBin : BinOp → Value → Value → Except Err Value
  | .add, a, b => pyAdd a b
  | .sub, a, b => pySub a b
  | .mult, a, b => pyMul a b
  | .mod, a, b => pyMod a b

/-- Rewrap an error the way an enclosing `except Exception` + `raise
DSLExecutionError(prefix + str(e))` does. -/
def wrapErr (prefx : String) : Except Err α → Except Err α
  | .ok a => .ok a
  | .error e => .error (.dsl (prefx ++ e.msg))

mutual

/-- `_eval_expr`'s recursive `_eval`, after parsing.  Notable source
behaviours preserved here: the `BinOp` branch wraps *any* exception from
its operands or operator in `DSLExecutionError("Expression evaluation
failed: …")`; the `Compare` branch has no such wrapper, so a `TypeError`
from e.g. `None < 3` escapes; `and`/`or` coerce each evaluated operand
with `bool(...)` and short-circuit, so later operands — even disallowed
node kinds — are never visited; a call evaluates its arguments first and
wraps only the function application itself. -/
def evalExpr (env : Env) : Expr → Except Err Value
  | .const v => .ok v
  | .name id =>
    match envGet env id with
    | some v => .ok v
    | none => .error (.dsl ("Unknown name in expression: " ++ id))
  | .unop op e => do applyUnary op (← evalExpr env e)
  | .binop op l r =>
    wrapErr "Expression evaluation failed: " (do applyBin op (← evalExpr env l) (← evalExpr env r))
  | .boolop .and vs => evalAnd env vs
  | .boolop .or vs => evalOr env vs
  | .compare l rest => do evalCmpChain env (← evalExpr env l) rest
  | .call f args =>
    if f ∈ funcNames then do
      let vs ← evalArgs env args
      wrapErr ("Function call failed: " ++ f ++ ": ") (applyBuiltin f vs)
    else
      .error (.dsl "Function not allowed in expressions")
  | .ifExp body test orelse => do
    if pyBool (← evalExpr env test) then evalExpr env body else evalExpr env orelse
  | .listLit _ => .error (.dsl "Expression element not allowed: List")
  | .attribute _ _ => .error (.dsl "Expression element not allowed: Attribute")
  | .subscript _ _ => .error (.dsl "Expression element not allowed: Subscript")

/-- The `ast.And` loop: evaluate operands left to right, coercing with
`bool(...)`; stop at the first falsy one. -/
def evalAnd (env : Env) : List Expr → Except Err Value
  | [] => .ok (.bool true)
  | e :: rest => do
    if pyBool (← evalExpr env e) then evalAnd env rest else .ok (.bool false)

/-- The `ast.Or` loop: stop at the first truthy operand. -/
def evalOr (env : Env) : List Expr → Except Err Value
  | [] => .ok (.bool false)
  | e :: rest => do
    if pyBool (← evalExpr env e) then .ok (.bool true) else evalOr env rest

/-- The chained-comparison loop (`a < b < c`): each comparator is
evaluated, compared with the running left value, and becomes the new left
value; the chain is `False` as soon as one comparison is. -/
def evalCmpChain (env : Env) (left : Value) : List (CmpOp × Expr) → Except Err Value
  | [] => .ok (.bool true)
  | (op, e) :: rest => do
    let right ← evalExpr env e
    if ← applyCmp op left right then evalCmpChain env right rest
    else .ok (.bool false)

/-- Positional call arguments, left to right. -/
def evalArgs (env : Env) : List Expr → Except Err (List Value)
  | [] => .ok []
  | e :: rest => do
    let v ← evalExpr env e
    let vs ← evalArgs env rest
    .ok (v :: vs)

end

/-- The built-in bindings contributed by `{**_ALLOWED_FUNCS, …}`: each
key bound to its function object. -/
def builtinEnv : Env :=
  funcNames.map (fun n => (n, .builtin n))

/-- `{**_ALLOWED_FUNCS, **m}`: entries of `m` override the built-ins. -/
def mergeEnv (m : Env) : Env :=
  m ++ builtinEnv

/-- A polars DataFrame: ordered named columns of values.  Polars
guarantees unique column names and equal column lengths; theorems assume
these where they matter (`DF.wf`). -/
structure DF where
  cols : List (String × List Value)
deriving DecidableEq, Repr

/-- Ordered column names. -/
def DF.names (df : DF) : List String :=
  df.cols.map Prod.fst

/-- `df.height`: the row count (length of the columns; polars keeps all
columns the same length). -/
def DF.height (df : DF) : Nat :=
  match df.cols with
  | [] => 0
  | c :: _ => c.2.length

/-- Well-formedness maintained by polars: equal column lengths and unique
names. -/
def DF.wf (df : DF) : Prop :=
  (∀ c ∈ df.cols, c.2.length = df.height) ∧ df.names.Nodup

/-- Column access by name (first match). -/
def DF.getCol (df : DF) (n : String) : Option (List Value) :=
  (df.cols.find? (fun c => c.1 == n)).map Prod.snd

/-- `df.with_columns(series.alias(n))`: replace the column in place when
the name exists, else append it. -/
def DF.withColumn (df : DF) (n : String) (vs : List Value) : DF :=
  if df.cols.any (fun c => c.1 == n) then
    ⟨df.cols.map (fun c => if c.1 == n then (n, vs) else c)⟩
  else
    ⟨df.cols ++ [(n, vs)]⟩

/-- `df.drop([n])`. -/
def DF.dropCol (df : DF) (n : String) : DF :=
  ⟨df.cols.filter (fun c => c.1 != n)⟩

/-- Row `i` of the frame, in column order. -/
def DF.rowAt (df : DF) (i : Nat) : List Value :=
  df.cols.map (fun c => c.2.getD i .null)

/-- All rows, in order. -/
def DF.rows (df : DF) : List (List Value) :=
  (List.range df.height).map df.rowAt

/-- Rebuild columns from rows: column `i` collects entry `i` of every
row. -/
def fromRowsAux (rows : List (List Value)) : Nat → List String → List (String × List Value)
  | _, [] => []
  | i, n :: ns => (n, rows.map (fun r => r.getD i .null)) :: fromRowsAux rows (i + 1) ns

/-- Rebuild a frame from rows under the given column names. -/
def DF.fromRows (names : List String) (rows : List (List Value)) : DF :=
  ⟨fromRowsAux rows 0 names⟩

/-- Keep the list entries whose mask bit is true. -/
def applyMask : List Bool → List Value → List Value
  | b :: bs, x :: xs => if b then x :: applyMask bs xs else applyMask bs xs
  | _, _ => []

/-- `df.filter(mask)`: row filtering, applied to every column. -/
def DF.filterMask (df : DF) (mask : List Bool) : DF :=
  ⟨df.cols.map (fun c => (c.1, applyMask mask c.2))⟩

/-- `_require_columns`: raise `DSLExecutionError` listing the missing
columns (list rendering inside the message is Lean's, not Python's
`repr`). -/
def requireColumns (df : DF) (columns : List String) (opName : String) : Except Err Unit :=
  let missing := columns.filter (fun c => !(df.names.contains c))
  if missing.isEmpty then .ok ()
  else .error (.dsl (opName ++ ": missing columns " ++ toString missing ++
                     ". Available columns: " ++ toString df.names))

/-- `series.cast(pl.Utf8, strict=False)` on one cell: null stays null,
strings pass through, ints/bools render, a non-castable value becomes
null. -/
def castUtf8 : Value → Option String
  | .null => none
  | .str s => some s
  | .int n => some (toString n)
  | .bool true => some "true"
  | .bool false => some "false"
  | .list _ => none
  | .builtin _ => none

/-- The polars regex-extraction primitive `str.extract(pattern, group)`
on one string, abstracted: (pattern, 1-based group index, text) to the
captured text or none.  Its internals (RE2 matching, and the error raised
for an invalid pattern) are outside the source under verification. -/
abbrev RegexEngine := String → Int → String → Option String

/-- `_apply_regex_extract`: `column` defaults to "line", `group` to 0;
a zero group wraps the whole pattern in one capturing group and extracts
group 1. -/
def apply_regex_extract (rex : RegexEngine) (df : DF) (column : Option String)
    (pattern : String) (group : Int) (asCol : String) : Except Err DF := do
  let column := column.getD "line"
  requireColumns df [column] "regex_extract"
  let eff := if group == 0 then "(" ++ pattern ++ ")" else pattern
  let gi : Int := if group == 0 then 1 else group
  let col := (df.getCol column).getD []
  let newCol := col.map (fun v =>
    match castUtf8 v with
    | none => Value.null
    | some s =>
      match rex eff gi s with
      | some r => Value.str r
      | none => Value.null)
  .ok (df.withColumn asCol newCol)

/-- `_apply_select`: project to the given columns in the given order. -/
def apply_select (df : DF) (columns : List String) : Except Err DF := do
  requireColumns df columns "select"
  .ok ⟨columns.map (fun c => (c, (df.getCol c).getD []))⟩

/-- `l.take n` when a length is given, else the whole list. -/
def takeOpt (length : Option Nat) (l : List Value) : List Value :=
  match length with
  | none => l
  | some n => l.take n

/-- `_apply_slice` = `df.slice(offset[, length])`.  Polars supports
negative offsets, which count from the end of the frame (clamped at the
start); there is no negativity check anywhere in the op. -/
def apply_slice (df : DF) (offset : Int) (length : Option Nat) : Except Err DF :=
  let start := if 0 ≤ offset then offset.toNat else ((df.height : Int) + offset).toNat
  .ok ⟨df.cols.map (fun c => (c.1, takeOpt length (c.2.drop start)))⟩

/-- The inline `take_every` branch of `execute_dsl`: overwrite (or
create) a `row_index` column with the fresh 0-based index series, keep
the rows with `row_index % n == offset % n`, then drop `row_index`. -/
def apply_take_every (df : DF) (n offset : Int) : Except Err DF :=
  if n ≤ 0 then .error (.dsl "take_every: 'n' must be >= 1")
  else
    let df1 := df.withColumn "row_index" ((List.range df.height).map (fun i => Value.int i))
    let mask := (List.range df.height).map (fun i => Int.fmod i n == Int.fmod offset n)
    .ok ((df1.filterMask mask).dropCol "row_index")

/-- Rank of a constructor for polars' typed columns: a polars column is
homogeneously typed, so cross-constructor comparisons never occur in a
run of the source; the model totalises them by constructor rank. -/
def vrank : Value → Nat
  | .null => 0
  | .bool _ => 1
  | .int _ => 2
  | .str _ => 3
  | .list _ => 4
  | .builtin _ => 5

mutual

/-- Total value ordering used to model polars sorting on non-null cells
(ints and bools numerically, strings lexicographically, lists
lexicographically). -/
def valueOrdTotal : Value → Value → Ordering
  | .bool a, .bool b => compare a b
  | .int a, .int b => compare a b
  | .str a, .str b => compare a b
  | .list a, .list b => valueOrdListTotal a b
  | a, b => compare (vrank a) (vrank b)

def valueOrdListTotal : List Value → List Value → Ordering
  | [], [] => .eq
  | [], _ :: _ => .lt
  | _ :: _, [] => .gt
  | a :: as, b :: bs =>
    match valueOrdTotal a b with
    | .eq => valueOrdListTotal as bs
    | o => o

end

/-- One sort-key cell comparison under a `descending` flag.  Polars'
`sort` is called with its default `nulls_last=False`, which places nulls
at the start for ascending *and* descending sorts; only the order of
non-null values is flipped by `descending`. -/
def cellCmp (desc : Bool) (a b : Value) : Ordering :=
  match a, b with
  | .null, .null => .eq
  | .null, _ => .lt
  | _, .null => .gt
  | a, b => if desc then (valueOrdTotal a b).swap else valueOrdTotal a b

/-- Lexicographic comparison of two rows over (column position,
descending) sort keys. -/
def rowCmp (pf : List (Nat × Bool)) (r1 r2 : List Value) : Ordering :=
  match pf with
  | [] => .eq
  | (p, d) :: rest =>
    match cellCmp d (r1.getD p .null) (r2.getD p .null) with
    | .eq => rowCmp rest r1 r2
    | o => o

/-- Insert into a sorted list (the model's stable comparison sort; polars
fixes only the comparator, not tie order, and no claim depends on tie
order). -/
def insertRow (le : List Value → List Value → Bool) (a : List Value) :
    List (List Value) → List (List Value)
  | [] => [a]
  | b :: bs => if le a b then a :: b :: bs else b :: insertRow le a bs

/-- Insertion sort. -/
def isort (le : List Value → List Value → Bool) : List (List Value) → List (List Value)
  | [] => []
  | a :: as => insertRow le a (isort le as)

/-- The `descending` argument of `sort_by`: a single bool or one per
column. -/
inductive DescSpec where
  | single (b : Bool)
  | perCol (bs : List Bool)
deriving DecidableEq, Repr

/-- Resolve each sort column to its position, left to right; a missing
column makes polars raise `ColumnNotFoundError`, uncaught by the op. -/
def resolveSortKeys (df : DF) : List (String × Bool) → Except Err (List (Nat × Bool))
  | [] => .ok []
  | (c, d) :: rest =>
    match df.names.findIdx? (fun n => n == c) with
    | some p => do
      let ps ← resolveSortKeys df rest
      .ok ((p, d) :: ps)
    | none => .error (.pyExc ("ColumnNotFoundError: " ++ c))

/-- `_apply_sort_by` = `df.sort(by=columns, descending=desc)` (defaults:
`descending=False`, `nulls_last=False`, not `maintain_order`).  A missing
sort column or a mismatched `descending` list makes polars raise, which
the op does not catch. -/
def apply_sort_by (df : DF) (columns : List String) (desc : DescSpec) : Except Err DF := do
  let flags ←
    match desc with
    | .single b => pure (columns.map (fun _ => b))
    | .perCol bs =>
      if bs.length == columns.length then pure bs
      else .error (.pyExc "ValueError: the length of descending does not match the sort columns")
  let pf ← resolveSortKeys df (columns.zip flags)
  let le := fun r1 r2 => rowCmp pf r1 r2 != Ordering.gt
  .ok (DF.fromRows df.names (isort le df.rows))

/-- The aggregation functions of `group_by_agg` modelled here; `mean`,
`min`, `max`, `n_unique` and `concat_str` are omitted (float results or
not used by any claim). -/
inductive AggFunc where
  | count
  | sum
  | first
  | last
deriving DecidableEq, Repr

/-- Source name of an aggregation function (for default output names). -/
def AggFunc.sname : AggFunc → String
  | .count => "count"
  | .sum => "sum"
  | .first => "first"
  | .last => "last"

/-- One entry of `aggregations`. -/
structure AggSpec where
  func : AggFunc
  column : Option String := none
  asCol : Option String := none
deriving DecidableEq, Repr

/-- Aggregate a column slice (`count` counts rows; `sum` skips nulls and
starts at 0, and polars raises on non-numeric columns; `first`/`last`
take the boundary value).  Aggregating an empty selection yields null for
`first`/`last`. -/
def aggValue : AggFunc → List Value → Except Err Value
  | .count, vs => .ok (.int vs.length)
  | .sum, vs => do
    let n ← vs.foldlM (fun (acc : Int) v =>
      match v with
      | .null => .ok acc
      | .int n => .ok (acc + n)
      | .bool b => .ok (acc + if b then 1 else 0)
      | _ => .error (.pyExc "InvalidOperationError: sum not supported for this dtype")) 0
    .ok (.int n)
  | .first, vs => .ok (vs.headD .null)
  | .last, vs => .ok (vs.getLastD .null)

/-- Distinct key tuples in order of first appearance. -/
def firstAppearAux (seen : List (List Value)) : List (List Value) → List (List Value)
  | [] => []
  | k :: ks =>
    if k ∈ seen then firstAppearAux seen ks
    else k :: firstAppearAux (k :: seen) ks

/-- Distinct key tuples in order of first appearance. -/
def firstAppear (l : List (List Value)) : List (List Value) :=
  firstAppearAux [] l

/-- The order in which `df.group_by(keys)` (called *without*
`maintain_order=True`) returns its groups.  Polars documents this order
as non-deterministic; a run of the source corresponds to one admissible
oracle, i.e. any function that permutes the first-appearance key list. -/
abbrev GroupOrd := List (List Value) → List (List Value)

/-- `_apply_group_by_agg`: build the aggregation expressions (raising for
an empty list or a missing `column` on a non-count aggregation), then
either `df.group_by(keys).agg(exprs)` — one output row per distinct key
tuple, key columns first, group order given by the oracle, rows within a
group kept in input order — or, with empty `keys`, the single-row global
aggregation `df.select(exprs)`. -/
def apply_group_by_agg (ord : GroupOrd) (df : DF) (keys : List String)
    (aggs : List AggSpec) : Except Err DF := do
  if aggs.isEmpty then
    .error (.dsl "group_by_agg: 'aggregations' is required")
  else
    let specs ← aggs.mapM (fun s =>
      match s.func, s.column with
      | .count, _ => pure (AggFunc.count, (none : Option String), s.asCol.getD "count")
      | f, some c => pure (f, some c, s.asCol.getD (c ++ "_" ++ f.sname))
      | _, none => .error (.dsl "group_by_agg: 'column' required for non-count"))
    let posOf : Option String → Except Err (Option Nat) := fun
      | none => pure none
      | some c =>
        match df.names.findIdx? (fun n => n == c) with
        | some p => pure (some p)
        | none => .error (.pyExc ("ColumnNotFoundError: " ++ c))
    let aggNames := specs.map (fun s => s.2.2)
    if keys.isEmpty then
      let row ← specs.mapM (fun s => do
        let p ← posOf s.2.1
        match p with
        | none => aggValue s.1 (List.replicate df.height .null)
        | some p => aggValue s.1 (df.rows.map (fun r => r.getD p .null)))
      .ok (DF.fromRows aggNames [row])
    else
      let keyPos ← keys.mapM (fun c =>
        match df.names.findIdx? (fun n => n == c) with
        | some p => pure p
        | none => .error (.pyExc ("ColumnNotFoundError: " ++ c)))
      let rows := df.rows
      let keyOf := fun (r : List Value) => keyPos.map (fun p => r.getD p .null)
      let fa := firstAppear (rows.map keyOf)
      let outRows ← (ord fa).mapM (fun k => do
        let grp := rows.filter (fun r => keyOf r == k)
        let avs ← specs.mapM (fun s => do
          let p ← posOf s.2.1
          match p with
          | none => aggValue s.1 (grp.map (fun _ => Value.null))
          | some p => aggValue s.1 (grp.map (fun r => r.getD p .null)))
        pure (k ++ avs))
      .ok (DF.fromRows (keys ++ aggNames) outRows)

/-- Casts accepted by `init_from_rows` (`"int"` and `"str"`; the
`"float"` branch produces an IEEE float and is outside the model). -/
inductive CastK where
  | cint
  | cstr
deriving DecidableEq, Repr

/-- One entry of `init_from_rows`: seed state variable `var` from the
cell at (`column` (default "line"), 0-based `row`), optionally cast. -/
structure InitFromRow where
  var : String
  column : Option String := none
  row : Int
  cast : Option CastK := none
deriving Repr

/-- The `steps_from_row` record: read the step count from a cell (its
`cast` defaults to `"int"`; the `"float"` branch is outside the model). -/
structure StepsFromRow where
  column : Option String := none
  row : Int
deriving Repr

/-- The `scan` step record. -/
structure ScanStep where
  init : List (String × Value) := []
  initFromRows : Option (List InitFromRow) := none
  steps : Option Int := none
  stepsFromRow : Option StepsFromRow := none
  update : List (String × Expr) := []
  emit : Option Expr := none
  asCol : Option String := none
deriving Repr

/-- Read a cell for scan seeding: `df[column][row]` when the column
exists, else `None` (that is the source's own fallback). -/
def cellOrNull (df : DF) (column : String) (row : Nat) : Value :=
  if df.names.contains column then ((df.getCol column).getD []).getD row .null
  else .null

/-- The `init` / `init_from_rows` seeding phase of `_apply_scan`:
`state = dict(init)`, then each `init_from_rows` entry overrides `var`
with a range-checked cell read (the `int`/`str` casts can raise, and the
source does not catch that). -/
def scanSeed (df : DF) (s : ScanStep) : Except Err Env := do
  match s.initFromRows with
  | none => .ok s.init
  | some specs =>
    specs.foldlM (fun st spec => do
      let column := spec.column.getD "line"
      if spec.row < 0 ∨ (df.height : Int) ≤ spec.row then
        .error (.dsl "init_from_rows: row index out of range")
      else
        let value := cellOrNull df column spec.row.toNat
        let value ←
          match spec.cast with
          | some .cint => pyIntCast value
          | some .cstr => pure (Value.str (pyStr value))
          | none => pure value
        .ok (envSet st spec.var value)) s.init

/-- The step-count resolution of `_apply_scan`: `steps` is preferred;
otherwise `steps_from_row` reads and int-casts a range-checked cell;
having neither is an error. -/
def scanSteps (df : DF) (s : ScanStep) : Except Err Int := do
  let resolved ←
    match s.steps, s.stepsFromRow with
    | some n, _ => pure (some n)
    | none, some spec => do
      let column := spec.column.getD "line"
      if spec.row < 0 ∨ (df.height : Int) ≤ spec.row then
        .error (.dsl "steps_from_row: row index out of range")
      else
        match ← pyIntCast (cellOrNull df column spec.row.toNat) with
        | .int n => pure (some n)
        | _ => pure none
    | none, none => pure none
  match resolved with
  | some n => pure n
  | none => .error (.dsl "scan: 'steps' or 'steps_from_row' is required")

/-- One iteration's simultaneous update: `next_state = dict(state)`, then
each `update[var]` is evaluated in `{**_ALLOWED_FUNCS, **state}` — the
*pre-iteration* state — and assigned into `next_state`. -/
def stepState (update : List (String × Expr)) (st : Env) : Except Err Env :=
  update.foldlM (fun acc p => do
    .ok (envSet acc p.1 (← evalExpr (mergeEnv st) p.2))) st

/-- The per-iteration emitted value: `emit` evaluated in the
pre-iteration state, or `None` when `emit` is absent/empty. -/
def scanEmit (emit : Option Expr) (st : Env) : Except Err Value :=
  match emit with
  | some e => evalExpr (mergeEnv st) e
  | none => .ok .null

/-- The scan loop: per iteration compute the snapshot, evaluate `emit` in
the pre-iteration state, append, and continue from the snapshot. -/
def scanLoop (update : List (String × Expr)) (emit : Option Expr) :
    Nat → Env → Except Err (List Value)
  | 0, _ => .ok []
  | n + 1, st => do
    let next ← stepState update st
    let v ← scanEmit emit st
    let rest ← scanLoop update emit n next
    .ok (v :: rest)

/-- `_apply_scan`: seed, resolve and range-check the step count
(`0 ≤ steps ≤ 100000`), run the loop, and return the fresh single-column
frame named `as` (default `"value"`) — the input's rows are discarded. -/
def apply_scan (df : DF) (s : ScanStep) : Except Err DF := do
  let st0 ← scanSeed df s
  let n ← scanSteps df s
  if n < 0 ∨ 100000 < n then
    .error (.dsl "scan: steps out of allowed range (0..100000)")
  else
    let outs ← scanLoop s.update s.emit n.toNat st0
    .ok ⟨[(s.asCol.getD "value", outs)]⟩

/-- The modelled subset of program steps.  `execute_dsl` dispatches ~40
op names; the ops not needed by any claim are omitted from the model, and
`unsupported op` stands for a step whose `op` string is outside the whole
closed set, which reaches the final `else` branch of the dispatcher.
Optional fields carry the source defaults at the use site. -/
inductive Step where
  | regexExtract (column : Option String) (pattern : String) (group : Option Int) (asCol : String)
  | select (columns : List String)
  | slice (offset : Option Int) (length : Option Nat)
  | takeEvery (n : Option Int) (offset : Option Int)
  | sortBy (columns : List String) (descending : Option DescSpec)
  | groupByAgg (keys : List String) (aggs : List AggSpec)
  | scan (s : ScanStep)
  | unsupported (op : String)
deriving Repr

/-- One dispatch of the `execute_dsl` loop body (defaults as in the
source: `group=0`, `offset=0`, `n=1`, `descending=False`). -/
def applyStep (rex : RegexEngine) (ord : GroupOrd) (df : DF) : Step → Except Err DF
  | .regexExtract column pattern group asCol =>
    apply_regex_extract rex df column pattern (group.getD 0) asCol
  | .select columns => apply_select df columns
  | .slice offset length => apply_slice df (offset.getD 0) length
  | .takeEvery n offset => apply_take_every df (n.getD 1) (offset.getD 0)
  | .sortBy columns d => apply_sort_by df columns (d.getD (.single false))
  | .groupByAgg keys aggs => apply_group_by_agg ord df keys aggs
  | .scan s => apply_scan df s
  | .unsupported op => .error (.dsl ("Unsupported op: " ++ op))

/-- The sequential step loop of `execute_dsl`: each step transforms the
frame produced by its predecessor; the first failure halts execution. -/
def execSteps (rex : RegexEngine) (ord : GroupOrd) : List Step → DF → Except Err DF
  | [], df => .ok df
  | s :: rest, df => do execSteps rex ord rest (← applyStep rex ord df s)

/-- The result record of `execute_dsl`: `output = df.to_dicts()` (row
dicts in column order) and `meta = {rows, columns}`. -/
structure ExecResult where
  output : List (List (String × Value))
  rows : Nat
  columns : List String
deriving DecidableEq, Repr

/-- `execute_dsl` from the decoded input frame on (`_ensure_dataframe`
itself is deterministic and outside the claims modelled here): run the
steps, then serialize. -/
def execute_dsl (rex : RegexEngine) (ord : GroupOrd) (steps : List Step) (df0 : DF) :
    Except Err ExecResult := do
  let df ← execSteps rex ord steps df0
  .ok { output := df.rows.map (fun r => df.names.zip r)
        rows := df.height
        columns := df.names }

/-- Whether an `Except` computation succeeded. -/
def exIsOk : Except Err α → Bool
  | .ok _ => true
  | .error _ => false

instance exceptDecEq {ε α : Type _} [DecidableEq ε] [DecidableEq α] :
    DecidableEq (Except ε α) := fun a b =>
  match a, b with
  | .ok x, .ok y =>
    match decEq x y with
    | .isTrue h => .isTrue (by rw [h])
    | .isFalse h => .isFalse (fun hh => h (by cases hh; rfl))
  | .ok _, .error _ => .isFalse (fun h => Except.noConfusion h)
  | .error _, .ok _ => .isFalse (fun h => Except.noConfusion h)
  | .error x, .error y =>
    match decEq x y with
    | .isTrue h => .isTrue (by rw [h])
    | .isFalse h => .isFalse (fun hh => h (by cases hh; rfl))

/-- Specification-side characterization of the scan state: the state
before iteration `i` is the `i`-fold simultaneous update of the seed
state (§ "Stateful scan" of the spec); used to compare the loop of
`_apply_scan` against the spec recurrence. -/
def stateN (update : List (String × Expr)) (s0 : Env) : Nat → Except Err Env
  | 0 => .ok s0
  | n + 1 => do stepState update (← stateN update s0 n)

/-- A regex engine instance (for closed statements; the engine is
irrelevant to the programs they run). -/
def noRex : RegexEngine := fun _ _ _ => none

/-- Two-row frame with a key column and a value column. -/
def dfKV : DF := ⟨[("k", [.str "x", .str "y"]), ("v", [.int 1, .int 2])]⟩

/-- A one-step program that groups by `k` and counts: no `sample`, no
`today()`/`now()` anywhere. -/
def progGroupCount : List Step := [.groupByAgg ["k"] [{func := .count}]]

/-- The Fibonacci scan of the spec seed scenario 4:
`init {a:1, b:1}, steps 5, update {a: b, b: a+b}, emit a, as line`. -/
def fibScan : ScanStep :=
  { init := [("a", .int 1), ("b", .int 1)], steps := some 5,
    update := [("a", .name "b"), ("b", .binop .add (.name "a") (.name "b"))],
    emit := some (.name "a"), asCol := some "line" }

/-- The empty frame. -/
def dfEmpty : DF := ⟨[]⟩

/-- One-row text frame. -/
def dfLine : DF := ⟨[("line", [.str "a"])]⟩

/-- Single int column with a null, for sorting. -/
def dfSortNull : DF := ⟨[("a", [.int 1, .null])]⟩

/-- Three-row variant. -/
def dfSortNull3 : DF := ⟨[("a", [.int 1, .null, .int 0])]⟩

/-- Three consecutive ints. -/
def dfThree : DF := ⟨[("a", [.int 0, .int 1, .int 2])]⟩

/-- A frame that already has a `row_index` column next to a data
column. -/
def dfRowIdx : DF := ⟨[("row_index", [.str "u", .str "v"]), ("x", [.int 10, .int 20])]⟩

/-- C1: the claim says `execute` is a deterministic function of
`(program, input)` whenever the program has no `sample` step and no
`today()`/`now()` call.  The code is in the wrong: `_apply_group_by_agg`
calls `df.group_by(keys)` without `maintain_order=True`, and polars
documents that group order as non-deterministic, so the row order of the
result — hence the serialized `ExecuteResult` — can differ between two
calls on identical arguments.  `progGroupCount` (one `group_by_agg` step,
no `sample`, no time calls) on the fixed frame `dfKV` yields different
results under two admissible group orders (both are permutations of the
first-appearance key list, as the oracle model requires). -/
theorem execute_depends_on_group_order :
    (∀ l : List (List Value), l.reverse.Perm l) ∧
    execute_dsl noRex List.reverse progGroupCount dfKV ≠
      execute_dsl noRex id progGroupCount dfKV :=
  ⟨fun l => l.reverse_perm, by decide⟩

/-- C6: the claim says `group_by_agg` returns groups in order of first
appearance of each key tuple.  The code is in the wrong (same
`maintain_order` omission as C1): any permutation of the groups is an
admissible outcome.  Under the identity oracle the result is the
first-appearance order the claim demands, but the reversed oracle — an
equally admissible run — differs from it. -/
theorem group_order_not_first_appearance :
    (∀ l : List (List Value), l.reverse.Perm l) ∧
    apply_group_by_agg id dfKV ["k"] [{func := .sum, column := some "v"}] =
      .ok ⟨[("k", [.str "x", .str "y"]), ("v_sum", [.int 1, .int 2])]⟩ ∧
    apply_group_by_agg List.reverse dfKV ["k"] [{func := .sum, column := some "v"}] ≠
      apply_group_by_agg id dfKV ["k"] [{func := .sum, column := some "v"}] :=
  ⟨fun l => l.reverse_perm, by decide, by decide⟩

/-- C7: `regex_extract` with `group = 0` equals `regex_extract` with the
pattern wrapped in one capturing group and `group = 1`: both calls build
the effective pattern `"(" + P + ")"` and extract capture group 1, for
every regex engine, frame, column choice and target column. -/
theorem regex_extract_zero_group (rex : RegexEngine) (df : DF) (c : Option String)
    (P a : String) :
    apply_regex_extract rex df c P 0 a =
      apply_regex_extract rex df c ("(" ++ P ++ ")") 1 a := by
  unfold apply_regex_extract
  norm_num

/-- C8 counterexample: the claim says a negative `slice` offset fails
with an `OpError` and never returns a DataFrame.  `_apply_slice` has no
negativity check and polars `slice` supports negative offsets, counting
from the end: offset `-1` on a three-row frame returns the last row. -/
theorem slice_negative_offset_ok :
    apply_slice dfThree (-1) none = .ok ⟨[("a", [.int 2])]⟩ := by decide

/-- C8 amended: a `slice` step with a negative offset does not fail; the
offset counts back from the end of the frame (equivalent to slicing at
`height + offset` when that is non-negative). -/
theorem slice_negative_offset_counts_from_end (df : DF) (offset : Int)
    (len : Option Nat) (hneg : offset < 0) (hin : 0 ≤ (df.height : Int) + offset) :
    apply_slice df offset len = apply_slice df ((df.height : Int) + offset) len := by
  unfold apply_slice
  rw [if_neg (by omega), if_pos hin]

/-- C8 witness: the amended statement at offset `-1` on `dfThree`. -/
theorem slice_negative_offset_counts_from_end_witness :
    apply_slice dfThree (-1) none =
      apply_slice dfThree ((dfThree.height : Int) + (-1)) none :=
  slice_negative_offset_counts_from_end dfThree (-1) none (by decide) (by decide)

/-- C4 counterexample: the claim says an expression containing a
disallowed construct fails with an `ExprError` even when the construct
sits in a branch that short-circuiting would never take.  The source
checks node kinds lazily during evaluation, so `True or [1]` evaluates to
`True` and `1 if True else x.y` evaluates to `1`, with the `ast.List` /
`ast.Attribute` node never rejected. -/
theorem disallowed_in_skipped_branch :
    evalExpr [] (.boolop .or [.const (.bool true), .listLit [.const (.int 1)]]) =
      .ok (.bool true) ∧
    evalExpr [] (.ifExp (.const (.int 1)) (.const (.bool true))
      (.attribute (.name "x") "y")) = .ok (.int 1) :=
  ⟨rfl, rfl⟩

/-- C4 amended: a disallowed construct is rejected with a
`DSLExecutionError` at the moment evaluation reaches its node — before
any part of the construct is evaluated — but the check happens at
evaluation time, not parse time: a disallowed node in an operand that
`and`/`or` short-circuits past is never visited and raises nothing. -/
theorem disallowed_rejected_when_reached (env : Env) (es : List Expr) (e : Expr)
    (attr : String) (idx : Expr) (first : Expr) (rest : List Expr) (v : Value)
    (hv : evalExpr env first = .ok v) :
    evalExpr env (.listLit es) = .error (.dsl "Expression element not allowed: List") ∧
    evalExpr env (.attribute e attr) =
      .error (.dsl "Expression element not allowed: Attribute") ∧
    evalExpr env (.subscript e idx) =
      .error (.dsl "Expression element not allowed: Subscript") ∧
    (pyBool v = true → evalExpr env (.boolop .or (first :: rest)) = .ok (.bool true)) ∧
    (pyBool v = false → evalExpr env (.boolop .and (first :: rest)) = .ok (.bool false)) := by
  refine ⟨rfl, rfl, rfl, ?_, ?_⟩
  · intro h
    simp [evalExpr, evalOr, hv, h, Bind.bind, Except.bind]
  · intro h
    simp [evalExpr, evalAnd, hv, h, Bind.bind, Except.bind]

/-- C4 witness: the amended statement instantiated with a truthy first
operand and a disallowed second operand. -/
theorem disallowed_rejected_when_reached_witness :
    evalExpr [] (.listLit []) = .error (.dsl "Expression element not allowed: List") ∧
    evalExpr [] (.attribute (.const .null) "x") =
      .error (.dsl "Expression element not allowed: Attribute") ∧
    evalExpr [] (.subscript (.const .null) (.const .null)) =
      .error (.dsl "Expression element not allowed: Subscript") ∧
    (pyBool (.bool true) = true →
      evalExpr [] (.boolop .or (.const (.bool true) :: [.listLit []])) = .ok (.bool true)) ∧
    (pyBool (.bool true) = false →
      evalExpr [] (.boolop .and (.const (.bool true) :: [.listLit []])) = .ok (.bool false)) :=
  disallowed_rejected_when_reached [] [] (.const .null) "x" (.const .null)
    (.const (.bool true)) [.listLit []] (.bool true) rfl

/-- Structural boolean equality on values is symmetric. -/
theorem value_beq_symm (x y : Value) : (x == y) = (y == x) := by
  by_cases h : x = y
  · subst h; rfl
  · have h2 : ¬y = x := fun hh => h hh.symm
    simp [beq_iff_eq, h, h2]

/-- `None == v` is true exactly for `v = None`. -/
theorem pyEq_null_left (v : Value) : pyEq .null v = (v == .null) := by
  cases v <;> simp [pyEq, asNum]

/-- `v == None` is true exactly for `v = None`. -/
theorem pyEq_null_right (v : Value) : pyEq v .null = (v == .null) := by
  cases v <;> simp [pyEq, asNum]

/-- Ordering a null against anything raises `TypeError`. -/
theorem pyOrd_null_left (v : Value) :
    pyOrd .null v =
      .error (.pyExc "TypeError: ordering not supported between these operand types") := by
  cases v <;> rfl

/-- Ordering anything against a null raises `TypeError`. -/
theorem pyOrd_null_right (v : Value) :
    pyOrd v .null =
      .error (.pyExc "TypeError: ordering not supported between these operand types") := by
  cases v <;> rfl

/-- `None is v` holds exactly for `v = None`. -/
theorem pyIs_null_left (v : Value) : pyIs .null v = (v == .null) := by
  cases v <;> rfl

/-- `v is None` holds exactly for `v = None`. -/
theorem pyIs_null_right (v : Value) : pyIs v .null = (v == .null) := by
  cases v <;> rfl

/-- `v in None` raises `TypeError` (nulls are not containers). -/
theorem pyIn_null_right (v : Value) :
    pyIn v .null = .error (.pyExc "TypeError: argument of type is not iterable") := by
  cases v <;> rfl

/-- Null membership in a list container is membership by equality. -/
theorem any_pyEq_null (vs : List Value) : vs.any (pyEq .null) = vs.contains .null := by
  induction vs with
  | nil => rfl
  | cons v vs ih =>
    simp only [List.any_cons, List.contains_cons, pyEq_null_left, ih]
    rw [value_beq_symm]

/-- A single (unchained) comparison evaluates both operands and applies
the operator, propagating its error unwrapped. -/
theorem evalCompareSingle (env : Env) (a b : Expr) (op : CmpOp) (va vb : Value)
    (ha : evalExpr env a = .ok va) (hb : evalExpr env b = .ok vb) :
    evalExpr env (.compare a [(op, b)]) =
      match applyCmp op va vb with
      | .ok c => .ok (.bool c)
      | .error e => .error e := by
  simp only [evalExpr, evalCmpChain, ha, hb, Bind.bind, Except.bind]
  rcases h : applyCmp op va vb with cb | er
  · rfl
  · first
    | rfl
    | (cases er <;> rfl)

/-- C3 counterexample: the claim says every comparison with a null
operand evaluates to false and does not raise.  In the source,
`None < 3` applies Python `operator.lt`, which raises an uncaught
`TypeError` (the `Compare` branch of `_eval_expr` has no try/except), and
`None == None` / `None != 3` evaluate to `True`, not false. -/
theorem cmp_null_claim_false :
    evalExpr [] (.compare (.const .null) [(.lt, .const (.int 3))]) ≠ .ok (.bool false) ∧
    evalExpr [] (.compare (.const .null) [(.eq, .const .null)]) = .ok (.bool true) ∧
    evalExpr [] (.compare (.const .null) [(.ne, .const (.int 3))]) = .ok (.bool true) :=
  ⟨by decide, rfl, rfl⟩

/-- C3 amended: when either operand of a comparison evaluates to null,
`==` yields the structural test (false against a non-null operand, true
for null against null) and `!=` its negation; the ordering comparisons
`<`, `<=`, `>`, `>=` raise an uncaught `TypeError` instead of evaluating
to false; `is` / `is-not` test nullness; `in` raises on a null container
and performs equality-based membership when the container is a list
(so `null in list` is true exactly when the list contains a null). -/
theorem cmp_null_semantics (env : Env) (a b : Expr) (va vb : Value)
    (ha : evalExpr env a = .ok va) (hb : evalExpr env b = .ok vb)
    (hnull : va = .null ∨ vb = .null) :
    evalExpr env (.compare a [(.eq, b)]) = .ok (.bool (va == vb)) ∧
    evalExpr env (.compare a [(.ne, b)]) = .ok (.bool !(va == vb)) ∧
    (∀ op ∈ [CmpOp.lt, CmpOp.le, CmpOp.gt, CmpOp.ge], ∃ m,
      evalExpr env (.compare a [(op, b)]) = .error (.pyExc m)) ∧
    evalExpr env (.compare a [(.isOp, b)]) = .ok (.bool (va == vb)) ∧
    evalExpr env (.compare a [(.isNot, b)]) = .ok (.bool !(va == vb)) ∧
    (vb = .null → ∃ m, evalExpr env (.compare a [(.inOp, b)]) = .error (.pyExc m)) ∧
    (∀ vs, vb = .list vs →
      evalExpr env (.compare a [(.inOp, b)]) = .ok (.bool (vs.contains .null))) := by
  have hEq : pyEq va vb = (va == vb) := by
    rcases hnull with h | h
    · subst h; rw [pyEq_null_left, value_beq_symm]
    · subst h; exact pyEq_null_right va
  have hOrd : pyOrd va vb =
      .error (.pyExc "TypeError: ordering not supported between these operand types") := by
    rcases hnull with h | h
    · subst h; exact pyOrd_null_left vb
    · subst h; exact pyOrd_null_right va
  have hIs : pyIs va vb = (va == vb) := by
    rcases hnull with h | h
    · subst h; rw [pyIs_null_left, value_beq_symm]
    · subst h; exact pyIs_null_right va
  refine ⟨?_, ?_, ?_, ?_, ?_, ?_, ?_⟩
  · rw [evalCompareSingle env a b .eq va vb ha hb]; simp [applyCmp, hEq]
  · rw [evalCompareSingle env a b .ne va vb ha hb]; simp [applyCmp, hEq]
  · intro op hop
    fin_cases hop
    · rw [evalCompareSingle env a b .lt va vb ha hb]
      exact ⟨"TypeError: ordering not supported between these operand types",
        by simp [applyCmp, hOrd, Bind.bind, Except.bind]⟩
    · rw [evalCompareSingle env a b .le va vb ha hb]
      exact ⟨"TypeError: ordering not supported between these operand types",
        by simp [applyCmp, hOrd, Bind.bind, Except.bind]⟩
    · rw [evalCompareSingle env a b .gt va vb ha hb]
      exact ⟨"TypeError: ordering not supported between these operand types",
        by simp [applyCmp, hOrd, Bind.bind, Except.bind]⟩
    · rw [evalCompareSingle env a b .ge va vb ha hb]
      exact ⟨"TypeError: ordering not supported between these operand types",
        by simp [applyCmp, hOrd, Bind.bind, Except.bind]⟩
  · rw [evalCompareSingle env a b .isOp va vb ha hb]; simp [applyCmp, hIs]
  · rw [evalCompareSingle env a b .isNot va vb ha hb]; simp [applyCmp, hIs]
  · intro h
    subst h
    rw [evalCompareSingle env a b .inOp va .null ha hb]
    exact ⟨"TypeError: argument of type is not iterable",
      by simp [applyCmp, pyIn_null_right]⟩
  · intro vs h
    subst h
    have hva : va = .null := by
      rcases hnull with h | h
      · exact h
      · cases h
    subst hva
    rw [evalCompareSingle env a b .inOp .null (.list vs) ha hb]
    simp [applyCmp, pyIn, any_pyEq_null]

/-- C3 witness: the amended statement at `None` compared with `3` in the
empty environment. -/
theorem cmp_null_semantics_witness :
    evalExpr [] (.compare (.const .null) [(.eq, .const (.int 3))]) =
      .ok (.bool (Value.null == Value.int 3)) ∧
    evalExpr [] (.compare (.const .null) [(.ne, .const (.int 3))]) =
      .ok (.bool !(Value.null == Value.int 3)) ∧
    (∀ op ∈ [CmpOp.lt, CmpOp.le, CmpOp.gt, CmpOp.ge], ∃ m,
      evalExpr [] (.compare (.const .null) [(op, .const (.int 3))]) = .error (.pyExc m)) ∧
    evalExpr [] (.compare (.const .null) [(.isOp, .const (.int 3))]) =
      .ok (.bool (Value.null == Value.int 3)) ∧
    evalExpr [] (.compare (.const .null) [(.isNot, .const (.int 3))]) =
      .ok (.bool !(Value.null == Value.int 3)) ∧
    (Value.int 3 = .null → ∃ m,
      evalExpr [] (.compare (.const .null) [(.inOp, .const (.int 3))]) = .error (.pyExc m)) ∧
    (∀ vs, Value.int 3 = .list vs →
      evalExpr [] (.compare (.const .null) [(.inOp, .const (.int 3))]) =
        .ok (.bool (vs.contains .null))) :=
  cmp_null_semantics [] (.const .null) (.const (.int 3)) .null (.int 3) rfl rfl (Or.inl rfl)

/-- The spec-side state recurrence advanced by one iteration from the
front: running `n+1` simultaneous updates from `s0` is one update
followed by `n` updates from the snapshot. -/
theorem stateN_shift (update : List (String × Expr)) (s0 : Env) :
    ∀ n, stateN update s0 (n + 1) =
      (stepState update s0).bind (fun s1 => stateN update s1 n) := by
  intro n
  induction n with
  | zero =>
    cases h : stepState update s0 <;>
      simp [stateN, Except.bind, Bind.bind, h]
  | succ n ih =>
    show (stateN update s0 (n + 1)).bind (stepState update) = _
    rw [ih]
    cases h : stepState update s0 <;>
      simp [Except.bind, Bind.bind, h, stateN]

/-- Loop invariant of `_apply_scan`: when every state and every emitted
value up to `n` is defined, the loop succeeds and produces exactly the
list of emit values taken in the pre-iteration states of the spec
recurrence `stateN`. -/
theorem scanLoop_ok (update : List (String × Expr)) (emit : Option Expr) :
    ∀ (n : Nat) (st : Env),
      exIsOk (stateN update st n) = true →
      (∀ i < n, exIsOk ((stateN update st i).bind (scanEmit emit)) = true) →
      ∃ outs, scanLoop update emit n st = .ok outs ∧ outs.length = n ∧
        ∀ i < n, ∃ v, (stateN update st i).bind (scanEmit emit) = .ok v ∧
          outs.get? i = some v := by
  intro n
  induction n with
  | zero =>
    intro st _ _
    exact ⟨[], rfl, rfl, fun i hi => absurd hi (Nat.not_lt_zero i)⟩
  | succ n ih =>
    intro st hS hE
    rcases h1 : stepState update st with e | s1
    · rw [stateN_shift update st n, h1] at hS
      simp [Except.bind, exIsOk] at hS
    · rcases h2 : scanEmit emit st with e | v0
      · have hE0 := hE 0 (Nat.succ_pos n)
        simp [stateN, Except.bind, h2, exIsOk] at hE0
      · have hS' : exIsOk (stateN update s1 n) = true := by
          rw [stateN_shift update st n, h1] at hS
          simpa [Except.bind] using hS
        have hE' : ∀ i < n, exIsOk ((stateN update s1 i).bind (scanEmit emit)) = true := by
          intro i hi
          have hh := hE (i + 1) (Nat.succ_lt_succ hi)
          rw [stateN_shift update st i, h1] at hh
          simpa [Except.bind] using hh
        obtain ⟨outs, hloop, hlen, hidx⟩ := ih s1 hS' hE'
        refine ⟨v0 :: outs, ?_, by simp [hlen], ?_⟩
        · simp [scanLoop, h1, h2, hloop, Except.bind, Bind.bind]
        · intro i hi
          cases i with
          | zero =>
            exact ⟨v0, by simp [stateN, Except.bind, h2], rfl⟩
          | succ i =>
            obtain ⟨v, hv, hg⟩ := hidx i (Nat.lt_of_succ_lt_succ hi)
            refine ⟨v, ?_, by simpa using hg⟩
            rw [stateN_shift update st i, h1]
            simpa [Except.bind] using hv

/-- C2: for a `scan` step with `steps = N`, `0 ≤ N ≤ 100000`, no
`init_from_rows` seeding, and updates/emit whose evaluations all succeed,
the op performs exactly `N` iterations with simultaneous-update
semantics: the output at index `i` is `emit` evaluated in the state
obtained by `i` simultaneous updates of the initial state (every update
expression of an iteration reads only the pre-iteration state, by the
recurrence `stateN`/`stepState`); the result is the single-column frame
named `as` (default `value`) of height exactly `N`, and it is the same
whatever the input frame holds. -/
theorem scan_semantics (df : DF) (s : ScanStep) (N : Int)
    (hsteps : s.steps = some N) (hinit : s.initFromRows = none)
    (h0 : 0 ≤ N) (h1 : N ≤ 100000)
    (hS : exIsOk (stateN s.update s.init N.toNat) = true)
    (hE : ∀ i < N.toNat, exIsOk ((stateN s.update s.init i).bind (scanEmit s.emit)) = true) :
    ∃ outs,
      apply_scan df s = .ok ⟨[(s.asCol.getD "value", outs)]⟩ ∧
      outs.length = N.toNat ∧
      (∀ i < N.toNat, ∃ v, (stateN s.update s.init i).bind (scanEmit s.emit) = .ok v ∧
        outs.get? i = some v) ∧
      ∀ df' : DF, apply_scan df' s = apply_scan df s := by
  obtain ⟨outs, hloop, hlen, hidx⟩ := scanLoop_ok s.update s.emit N.toNat s.init hS hE
  have happ : ∀ d : DF, apply_scan d s = .ok ⟨[(s.asCol.getD "value", outs)]⟩ := by
    intro d
    simp only [apply_scan, scanSeed, hinit, scanSteps, hsteps, Bind.bind, Except.bind,
      pure, Except.pure]
    rw [if_neg (by omega)]
    simp [hloop, Except.bind]
  exact ⟨outs, happ df, hlen, hidx, fun df' => by rw [happ df', happ df]⟩

/-- C2 witness: the Fibonacci scan of the spec seed scenario 4 on the
empty frame. -/
theorem scan_semantics_witness :
    ∃ outs,
      apply_scan dfEmpty fibScan = .ok ⟨[(fibScan.asCol.getD "value", outs)]⟩ ∧
      outs.length = (5 : Int).toNat ∧
      (∀ i < (5 : Int).toNat, ∃ v,
        (stateN fibScan.update fibScan.init i).bind (scanEmit fibScan.emit) = .ok v ∧
        outs.get? i = some v) ∧
      ∀ df' : DF, apply_scan df' fibScan = apply_scan dfEmpty fibScan :=
  scan_semantics dfEmpty fibScan 5 rfl rfl (by decide) (by decide) (by decide) (by decide)

/-- C9 counterexample: the claim says a program containing an unknown op
fails with a validation error before *any* step executes.  `execute_dsl`
has no pre-execution validation pass: it dispatches steps sequentially
and raises for an unknown op only when that step is reached.  On the
program `[select{no_such}, bogus-op]` the result is the missing-column
failure of step 0 — the same failure the one-step program produces — not
the unknown-op failure the claim requires. -/
theorem unknown_op_after_failing_step :
    execSteps noRex id [.select ["no_such"], .unsupported "bogus"] dfLine =
      execSteps noRex id [.select ["no_such"]] dfLine ∧
    execSteps noRex id [.select ["no_such"], .unsupported "bogus"] dfLine ≠
      .error (.dsl "Unsupported op: bogus") :=
  ⟨rfl, by decide⟩

/-- C9 amended: an unknown op makes `execute_dsl` fail with
`DSLExecutionError("Unsupported op: …")` at the moment its step is
reached during sequential execution; the steps before it are applied
first — an earlier failing step surfaces its own error instead, and an
earlier succeeding step transforms the frame before execution
continues. -/
theorem unknown_op_fails_when_reached (rex : RegexEngine) (ord : GroupOrd)
    (name : String) (s : Step) (rest : List Step) (df : DF) :
    execSteps rex ord (.unsupported name :: rest) df =
      .error (.dsl ("Unsupported op: " ++ name)) ∧
    (∀ e, applyStep rex ord df s = .error e →
      execSteps rex ord (s :: rest) df = .error e) ∧
    (∀ df', applyStep rex ord df s = .ok df' →
      execSteps rex ord (s :: rest) df = execSteps rex ord rest df') := by
  refine ⟨?_, ?_, ?_⟩
  · simp [execSteps, applyStep, Except.bind, Bind.bind]
  · intro e he
    simp [execSteps, he, Except.bind, Bind.bind]
  · intro df' h
    simp [execSteps, h, Except.bind, Bind.bind]

/-- C9 witness: the amended statement on one-step programs over
`dfLine` — a leading unknown op fails with the unsupported-op message, a
failing `select` surfaces its own error, and a succeeding `select`
passes its output frame on. -/
theorem unknown_op_fails_when_reached_witness :
    execSteps noRex id [.unsupported "bogus"] dfLine =
      .error (.dsl ("Unsupported op: " ++ "bogus")) ∧
    execSteps noRex id [.select ["no_such"]] dfLine =
      .error (.dsl "select: missing columns [no_such]. Available columns: [line]") ∧
    execSteps noRex id [.select ["line"]] dfLine =
      execSteps noRex id [] ⟨[("line", [.str "a"])]⟩ :=
  ⟨(unknown_op_fails_when_reached noRex id "bogus" (.select ["line"]) [] dfLine).1,
   (unknown_op_fails_when_reached noRex id "bogus" (.select ["no_such"]) [] dfLine).2.1
     (.dsl "select: missing columns [no_such]. Available columns: [line]") (by decide),
   (unknown_op_fails_when_reached noRex id "bogus" (.select ["line"]) [] dfLine).2.2
     ⟨[("line", [.str "a"])]⟩ (by decide)⟩

/-- Replacing the `ri` column, masking every column, then dropping `ri`
leaves exactly the masked other columns. -/
theorem clobber_filter_lemma (ri : String) (fresh : List Value) (m : List Bool)
    (cols : List (String × List Value)) :
    ((cols.map (fun c => if c.1 == ri then (ri, fresh) else c)).map
        (fun c => (c.1, applyMask m c.2))).filter (fun c => c.1 != ri) =
      (cols.filter (fun c => c.1 != ri)).map (fun c => (c.1, applyMask m c.2)) := by
  induction cols with
  | nil => rfl
  | cons c cs ih =>
    by_cases h : c.1 = ri
    · have h1 : (c.1 == ri) = true := by simp [h]
      have h2 : (c.1 != ri) = false := by simp [h]
      simp only [List.map_cons, List.filter_cons, h1, if_true, h2, Bool.false_eq_true,
        if_false, ih, bne_self_eq_false]
    · have h1 : (c.1 == ri) = false := by simp [h]
      have h2 : (c.1 != ri) = true := by simp [h]
      simp only [List.map_cons, List.filter_cons, h1, Bool.false_eq_true, if_false,
        h2, if_true, ih]

/-- Appending a fresh `ri` column, masking every column, then dropping
`ri` leaves exactly the masked original columns when none of them is
named `ri`. -/
theorem clobber_append_lemma (ri : String) (fresh : List Value) (m : List Bool)
    (cols : List (String × List Value)) (h : ∀ c ∈ cols, c.1 ≠ ri) :
    ((cols ++ [(ri, fresh)]).map (fun c => (c.1, applyMask m c.2))).filter
        (fun c => c.1 != ri) =
      cols.map (fun c => (c.1, applyMask m c.2)) := by
  induction cols with
  | nil => simp
  | cons c cs ih =>
    have hc := h c (by simp)
    simp only [List.cons_append, List.map_cons, List.filter_cons]
    rw [ih (fun x hx => h x (by simp [hx]))]
    simp [hc]

/-- C10: a frame that already contains a `row_index` column loses it
under `take_every`: the dispatcher overwrites it in place with the
temporary 0-based index series used for filtering and then drops the
column entirely, so the result equals `take_every` of the frame without
its original `row_index` column — the original data is gone, and every
other column just undergoes the documented row filtering. -/
theorem take_every_clobbers_row_index (df : DF) (n offset : Int)
    (hn : 1 ≤ n) (hmem : "row_index" ∈ df.names) (hwf : df.wf) :
    apply_take_every df n offset = apply_take_every (df.dropCol "row_index") n offset ∧
    ∀ out, apply_take_every df n offset = .ok out → "row_index" ∉ out.names := by
  have hle : ¬n ≤ 0 := by omega
  have hany : df.cols.any (fun c => c.1 == "row_index") = true := by
    rcases List.mem_map.mp hmem with ⟨c, hc, hfst⟩
    exact List.any_eq_true.mpr ⟨c, hc, by simp [hfst]⟩
  have hany' : ((df.cols.filter (fun c => c.1 != "row_index")).any
      (fun c => c.1 == "row_index")) = false := by
    rw [List.any_eq_false]
    intro c hc
    have := (List.mem_filter.mp hc).2
    simpa using this
  have hL : apply_take_every df n offset =
      .ok ⟨(df.cols.filter (fun c => c.1 != "row_index")).map
        (fun c => (c.1, applyMask ((List.range df.height).map
          (fun i => Int.fmod i n == Int.fmod offset n)) c.2))⟩ := by
    simp only [apply_take_every, if_neg hle, DF.withColumn, hany, if_true,
      DF.filterMask, DF.dropCol]
    rw [clobber_filter_lemma]
  have hR : apply_take_every (df.dropCol "row_index") n offset =
      .ok ⟨(df.cols.filter (fun c => c.1 != "row_index")).map
        (fun c => (c.1, applyMask ((List.range (df.dropCol "row_index").height).map
          (fun i => Int.fmod i n == Int.fmod offset n)) c.2))⟩ := by
    simp only [apply_take_every, if_neg hle, DF.withColumn, hany', Bool.false_eq_true,
      if_false, DF.filterMask, DF.dropCol]
    rw [clobber_append_lemma]
    intro c hc
    have := (List.mem_filter.mp hc).2
    simpa using this
  have hheight : (df.dropCol "row_index").height = df.height ∨
      df.cols.filter (fun c => c.1 != "row_index") = [] := by
    cases hfil : df.cols.filter (fun c => c.1 != "row_index") with
    | nil => exact Or.inr rfl
    | cons c0 cs =>
      refine Or.inl ?_
      have hc0 : c0 ∈ df.cols := (List.mem_filter.mp (hfil ▸ List.mem_cons_self c0 cs)).1
      have hlen : c0.2.length = df.height := hwf.1 c0 hc0
      simp [DF.dropCol, DF.height, hfil, hlen]
  constructor
  · rcases hheight with h | h
    · rw [hL, hR, h]
    · rw [hL, hR, h]
      simp
  · intro out hout
    rw [hL] at hout
    cases hout
    intro hmem2
    obtain ⟨c, hc, hfst⟩ := List.mem_map.mp hmem2
    obtain ⟨c', hc', rfl⟩ := List.mem_map.mp hc
    have hbne := (List.mem_filter.mp hc').2
    simp only [bne_iff_ne, ne_eq] at hbne
    exact hbne hfst

/-- C10 witness: a two-column frame whose `row_index` column holds
strings; `take_every{n=2, offset=0}` returns the same frame as the one
without that column, and the output has no `row_index` column. -/
theorem take_every_clobbers_row_index_witness :
    apply_take_every dfRowIdx 2 0 = apply_take_every (dfRowIdx.dropCol "row_index") 2 0 ∧
    ∀ out, apply_take_every dfRowIdx 2 0 = .ok out → "row_index" ∉ out.names :=
  take_every_clobbers_row_index dfRowIdx 2 0 (by decide) (by decide)
    ⟨by decide, by decide⟩

/-- A row whose sort-key cell is null never compares greater: the sort
comparator places it at or before anything. -/
theorem sortLe_null_le (p : Nat) (desc : Bool) (x y : List Value)
    (hx : x.getD p .null = .null) :
    (rowCmp [(p, desc)] x y != Ordering.gt) = true := by
  have hcc : cellCmp desc (x.getD p .null) (y.getD p .null) ≠ .gt := by
    rw [hx]
    cases hy : y.getD p .null <;> simp [cellCmp]
  simp only [rowCmp]
  cases hc : cellCmp desc (x.getD p .null) (y.getD p .null) with
  | lt => decide
  | eq => decide
  | gt => exact absurd hc hcc

/-- A row with a non-null sort-key cell compares greater than one whose
cell is null: the comparator never lets it precede a null. -/
theorem sortLe_nonnull_null (p : Nat) (desc : Bool) (x y : List Value)
    (hx : x.getD p .null ≠ .null) (hy : y.getD p .null = .null) :
    (rowCmp [(p, desc)] x y != Ordering.gt) = false := by
  have hcc : cellCmp desc (x.getD p .null) (y.getD p .null) = .gt := by
    rw [hy]
    cases hxv : x.getD p .null
    · exact absurd hxv hx
    all_goals simp [cellCmp]
  simp only [rowCmp]
  rw [hcc]
  decide

/-- Members of an insertion come from the inserted element or the
list. -/
theorem insertRow_mem (le : List Value → List Value → Bool) (a x : List Value) :
    ∀ l, x ∈ insertRow le a l → x = a ∨ x ∈ l := by
  intro l
  induction l with
  | nil =>
    intro h
    simp only [insertRow, List.mem_singleton] at h
    exact Or.inl h
  | cons b bs ih =>
    intro h
    simp only [insertRow] at h
    by_cases hle : le a b = true
    · rw [if_pos hle] at h
      rcases List.mem_cons.mp h with h1 | h1
      · exact Or.inl h1
      · exact Or.inr h1
    · rw [if_neg hle] at h
      rcases List.mem_cons.mp h with h1 | h1
      · exact Or.inr (by simp [h1])
      · rcases ih h1 with h2 | h2
        · exact Or.inl h2
        · exact Or.inr (by simp [h2])

/-- Inserting into a list ordered so that key-holders precede
non-key-holders preserves that shape, provided the comparator always
lets key-holders through (`H1`) and never lets a non-key-holder pass a
key-holder (`H2`). -/
theorem insertRow_pairwise (le : List Value → List Value → Bool)
    (k : List Value → Bool)
    (H1 : ∀ x y, k x = true → le x y = true)
    (H2 : ∀ x y, k x = false → k y = true → le x y = false)
    (a : List Value) :
    ∀ l, l.Pairwise (fun x y => k y = true → k x = true) →
      (insertRow le a l).Pairwise (fun x y => k y = true → k x = true) := by
  intro l
  induction l with
  | nil =>
    intro _
    simp [insertRow]
  | cons b bs ih =>
    intro hpw
    rw [List.pairwise_cons] at hpw
    obtain ⟨hb, hbs⟩ := hpw
    simp only [insertRow]
    by_cases hle : le a b = true
    · rw [if_pos hle]
      refine List.Pairwise.cons ?_ (List.Pairwise.cons hb hbs)
      intro y hy hky
      cases hka : k a
      · exfalso
        rcases List.mem_cons.mp hy with rfl | hy'
        · rw [H2 a y hka hky] at hle
          exact Bool.false_ne_true hle
        · have hkb : k b = true := hb y hy' hky
          rw [H2 a b hka hkb] at hle
          exact Bool.false_ne_true hle
      · rfl
    · rw [if_neg hle]
      refine List.Pairwise.cons ?_ (ih hbs)
      intro y hy hky
      rcases insertRow_mem le a y bs hy with rfl | hy'
      · exact absurd (H1 y b hky) hle
      · exact hb y hy' hky

/-- Insertion sort keeps every key-holder before every
non-key-holder. -/
theorem isort_pairwise (le : List Value → List Value → Bool)
    (k : List Value → Bool)
    (H1 : ∀ x y, k x = true → le x y = true)
    (H2 : ∀ x y, k x = false → k y = true → le x y = false) :
    ∀ l, (isort le l).Pairwise (fun x y => k y = true → k x = true) := by
  intro l
  induction l with
  | nil => simp [isort]
  | cons a as ih =>
    simpa [isort] using insertRow_pairwise le k H1 H2 a (isort le as) ih

/-- The column that `fromRowsAux` builds for the name found at index `p`
collects row entry `i + p`. -/
theorem fromRowsAux_getCol (rows : List (List Value)) (c : String) :
    ∀ (names : List String) (i p : Nat),
      names.findIdx? (fun n => n == c) = some p →
      ((fromRowsAux rows i names).find? (fun cc => cc.1 == c)).map Prod.snd =
        some (rows.map (fun r => r.getD (i + p) .null)) := by
  intro names
  induction names with
  | nil =>
    intro i p hp
    simp [List.findIdx?] at hp
  | cons n ns ih =>
    intro i p hp
    rw [List.findIdx?_cons] at hp
    by_cases h : n = c
    · rw [if_pos (by simp [h])] at hp
      have hp0 : p = 0 := by
        cases hp
        rfl
      subst hp0
      simp [fromRowsAux, List.find?, h]
    · rw [if_neg (by simp [h])] at hp
      rw [List.findIdx?_succ] at hp
      rcases hq : ns.findIdx? (fun n => n == c) with _ | q
      · rw [hq] at hp
        simp at hp
      · rw [hq] at hp
        simp only [Option.map_some'] at hp
        cases hp
        have hrec := ih (i + 1) q hq
        have hne : (n == c) = false := by simp [h]
        simp only [fromRowsAux, List.find?, hne]
        rw [hrec]
        have harith : i + 1 + q = i + (q + 1) := by omega
        rw [harith]

/-- `getCol` after `fromRows`: the column named by position `p` of the
name list holds entry `p` of every row. -/
theorem fromRows_getCol (names : List String) (rows : List (List Value))
    (c : String) (p : Nat) (hp : names.findIdx? (fun n => n == c) = some p) :
    (DF.fromRows names rows).getCol c = some (rows.map (fun r => r.getD p .null)) := by
  have h := fromRowsAux_getCol rows c names 0 p hp
  simpa [DF.fromRows, DF.getCol] using h

/-- C5 counterexample: the claim says nulls sort after all non-null
values when ascending.  `_apply_sort_by` calls polars `sort` with its
default `nulls_last=False`, which places nulls first: ascending sort of
`[1, null]` yields `[null, 1]`, not the claimed `[1, null]`. -/
theorem sort_ascending_nulls_first :
    apply_sort_by dfSortNull ["a"] (.single false) = .ok ⟨[("a", [.null, .int 1])]⟩ ∧
    apply_sort_by dfSortNull ["a"] (.single false) ≠ .ok ⟨[("a", [.int 1, .null])]⟩ :=
  ⟨by decide, by decide⟩

/-- C5 amended: under `sort_by` on a single column, null values are
placed *before* all non-null values for ascending and descending sorts
alike (the polars default `nulls_last=False`): in the sorted key column,
any entry preceding a null is itself null. -/
theorem sort_by_nulls_first (df : DF) (c : String) (desc : Bool) (out : DF)
    (col : List Value) (i j : Nat)
    (h : apply_sort_by df [c] (.single desc) = .ok out)
    (hc : out.getCol c = some col)
    (hij : i ≤ j) (hj : j < col.length)
    (hnull : col.getD j .null = .null) :
    col.getD i .null = .null := by
  rcases Nat.eq_or_lt_of_le hij with rfl | hlt
  · exact hnull
  · rcases hfind : df.names.findIdx? (fun n => n == c) with _ | p
    · exfalso
      simp [apply_sort_by, resolveSortKeys, hfind, Bind.bind, Except.bind,
        pure, Except.pure] at h
    · have hout : out = DF.fromRows df.names
          (isort (fun r1 r2 => rowCmp [(p, desc)] r1 r2 != Ordering.gt) df.rows) := by
        simp only [apply_sort_by, resolveSortKeys, hfind, List.zip_cons_cons,
          List.zip_nil_right, List.zip_nil_left, Bind.bind, Except.bind,
          pure, Except.pure] at h
        cases h
        rfl
      subst hout
      have hcol : col = (isort (fun r1 r2 => rowCmp [(p, desc)] r1 r2 != Ordering.gt)
          df.rows).map (fun r => r.getD p .null) := by
        rw [fromRows_getCol df.names _ c p hfind] at hc
        cases hc
        rfl
      subst hcol
      have hpw := isort_pairwise
        (fun r1 r2 => rowCmp [(p, desc)] r1 r2 != Ordering.gt)
        (fun r => r.getD p .null == .null)
        (fun x y hx => sortLe_null_le p desc x y (by simpa [beq_iff_eq] using hx))
        (fun x y hx hy => sortLe_nonnull_null p desc x y
          (by simpa [beq_iff_eq] using hx) (by simpa [beq_iff_eq] using hy))
        df.rows
      have hpw2 : ((isort (fun r1 r2 => rowCmp [(p, desc)] r1 r2 != Ordering.gt)
          df.rows).map (fun r => r.getD p .null)).Pairwise
          (fun x y => (y == Value.null) = true → (x == Value.null) = true) := by
        rw [List.pairwise_map]
        exact hpw
      have hi : i < ((isort (fun r1 r2 => rowCmp [(p, desc)] r1 r2 != Ordering.gt)
          df.rows).map (fun r => r.getD p .null)).length := Nat.lt_trans hlt hj
      have hrel := List.pairwise_iff_getElem.mp hpw2 i j hi hj hlt
      rw [List.getD_eq_getElem _ _ hj] at hnull
      rw [List.getD_eq_getElem _ _ hi]
      simp only [List.getElem_map] at hrel hnull ⊢
      have h2 := hrel (by rw [beq_iff_eq]; exact hnull)
      rw [beq_iff_eq] at h2
      exact h2

/-- C5 witness: the amended statement on the ascending sort of
`[1, null, 0]`, whose output column is `[null, 0, 1]`. -/
theorem sort_by_nulls_first_witness :
    ([Value.null, Value.int 0, Value.int 1].getD 0 .null = Value.null) :=
  sort_by_nulls_first dfSortNull3 "a" false ⟨[("a", [.null, .int 0, .int 1])]⟩
    [Value.null, Value.int 0, Value.int 1] 0 0 (by decide) (by decide)
    (Nat.le_refl 0) (by decide) (by decide)

end Determin
